import Mathlib

/-!
Verification of the hive-manager frontend orchestration stores.

The definitions below are a shallow embedding of the TypeScript sources:
the session/agent data model and store operations of
src/lib/stores/sessions.ts, the conversation and heartbeat stores of
src/lib/stores/conversations.ts, the coordination store of
src/routes/+page.svelte, the children-by-parent index of the agent tree
component, the planning view helpers (canRefine, handleContinue) and the
status panel alert filter.  Store methods that await a Tauri invoke or an
HTTP fetch are embedded as pure functions taking the invocation outcome
(an Except value) as an explicit argument; the function returns the updated
store state together with the outcome the caller's promise observes.
Backend (Rust) behaviour that is not part of the frontend sources is
modelled from the specification and marked as such in its doc comment.
-/

namespace HiveManager

/-- AgentRole from src/lib/stores/sessions.ts: MasterPlanner, Queen, and the
tagged variants Planner, Worker and Fusion. -/
inductive AgentRole where
  | MasterPlanner : AgentRole
  | Queen : AgentRole
  | Planner (index : Nat) : AgentRole
  | Worker (index : Nat) (parent : Option String) : AgentRole
  | Fusion (variant : String) : AgentRole
deriving DecidableEq, Repr

/-- AgentStatus from src/lib/stores/sessions.ts: the bare string variants
Starting, Running and Completed, and the tagged variants WaitingForInput
(carrying the last output line) and Error (carrying a message). -/
inductive AgentStatus where
  | Starting : AgentStatus
  | Running : AgentStatus
  | WaitingForInput (lastLine : String) : AgentStatus
  | Completed : AgentStatus
  | Error (message : String) : AgentStatus
deriving DecidableEq, Repr

/-- AgentInfo from src/lib/stores/sessions.ts (the config field, unused by
any verified operation, is omitted). -/
structure AgentInfo where
  id : String
  role : AgentRole
  status : AgentStatus
  parent_id : Option String
deriving DecidableEq, Repr

/-- SessionState from src/lib/stores/sessions.ts.  Note that the type has
exactly the variants Planning, PlanReady, Starting, Running, Paused,
Completed and Failed; there is no Closed variant. -/
inductive SessionState where
  | Planning : SessionState
  | PlanReady : SessionState
  | Starting : SessionState
  | Running : SessionState
  | Paused : SessionState
  | Completed : SessionState
  | Failed (reason : String) : SessionState
deriving DecidableEq, Repr

/-- Session from src/lib/stores/sessions.ts (session_type, project_path and
created_at, unused by the verified operations, are omitted). -/
structure Session where
  id : String
  state : SessionState
  agents : List AgentInfo
deriving DecidableEq, Repr

/-- SessionsState, the state of the sessions store. -/
structure SessionsState where
  sessions : List Session
  activeSessionId : Option String
  loading : Bool
  error : Option String
deriving DecidableEq, Repr

/-- CoordinationMessage from src/routes/+page.svelte. -/
structure CoordinationMessage where
  id : String
  timestamp : String
  from_ : String
  to_ : String
  content : String
  message_type : String
deriving DecidableEq, Repr

/-- Coordination-message event listener of createCoordinationStore
(src/routes/+page.svelte): the incoming message is appended to the log
unless some message with the same id is already present. -/
def appendCoordinationMessage (log : List CoordinationMessage)
    (m : CoordinationMessage) : List CoordinationMessage :=
  if log.any (fun x => x.id = m.id) then log else log ++ [m]

/-- Fusion-variant-completed event listener of createCoordinationStore
(src/routes/+page.svelte): the reported variant name is appended to
completedVariants unconditionally, with no duplicate check. -/
def applyFusionVariantCompleted (completedVariants : List String)
    (variant : String) : List String :=
  completedVariants ++ [variant]

/-- Delivery of a whole sequence of fusion-variant-completed events. -/
def applyFusionVariantCompletedAll (completedVariants : List String)
    (events : List String) : List String :=
  events.foldl applyFusionVariantCompleted completedVariants

/-- Children-by-parent map representation: a JS Map from parent_id
(including null) to the ordered list of children, embedded as an
insertion-ordered association list. -/
abbrev ChildrenMap := List (Option String × List AgentInfo)

/-- JS Map.get: the value stored under the key, if any. -/
def mapGet (m : ChildrenMap) (k : Option String) : Option (List AgentInfo) :=
  (m.find? (fun e => e.fst = k)).map (fun e => e.snd)

/-- JS Map.set: replaces the value under an existing key in place, else
appends a new entry. -/
def mapSet : ChildrenMap → Option String → List AgentInfo → ChildrenMap
  | [], k, v => [(k, v)]
  | e :: rest, k, v =>
      if e.fst = k then (k, v) :: rest else e :: mapSet rest k v

/-- One step of the forEach body of getChildrenMap (AgentTree component):
fetch the current bucket of the agent's parent_id (empty when absent),
push the agent, and store it back. -/
def childrenMapStep (m : ChildrenMap) (a : AgentInfo) : ChildrenMap :=
  mapSet m a.parent_id (((mapGet m a.parent_id).getD []) ++ [a])

/-- getChildrenMap from the AgentTree component: builds the
parent_id-to-children map by iterating over the agent list in order. -/
def getChildrenMap (agents : List AgentInfo) : ChildrenMap :=
  agents.foldl childrenMapStep []

/-- The bucket the component reads for a key: childrenMap.get(p) with the
empty list as the fallback (the component uses the empty-list fallback for
the null key when rendering roots). -/
def childrenBucket (agents : List AgentInfo) (p : Option String) : List AgentInfo :=
  (mapGet (getChildrenMap agents) p).getD []

/-- First session of the list with the given id, as computed by the
sessions.find calls of the store (JS Array.prototype.find). -/
def firstSessionById (l : List Session) (sessionId : String) : Option Session :=
  l.find? (fun s => s.id = sessionId)

/-- Success branch of stopSession in src/lib/stores/sessions.ts: the first
session whose id matches has its state set to Completed (not Closed, which
the SessionState type cannot even represent); no session is removed. -/
def applyStopSession : List Session → String → List Session
  | [], _ => []
  | s :: rest, sessionId =>
      if s.id = sessionId then { s with state := SessionState.Completed } :: rest
      else s :: applyStopSession rest sessionId

/-- Success branch of markPlanReady in src/lib/stores/sessions.ts: the
first session whose id matches has its state set to PlanReady. -/
def applyMarkPlanReady : List Session → String → List Session
  | [], _ => []
  | s :: rest, sessionId =>
      if s.id = sessionId then { s with state := SessionState.PlanReady } :: rest
      else s :: applyMarkPlanReady rest sessionId

/-- Replacement of the first session carrying the incoming session's id,
as done by the session-update listener and by continueAfterPlanning
(state.sessions at the found index is overwritten in place). -/
def replaceFirstById : List Session → Session → List Session
  | [], _ => []
  | s :: rest, incoming =>
      if s.id = incoming.id then incoming :: rest
      else s :: replaceFirstById rest incoming

/-- Session-update event listener of createSessionsStore: an existing
session with the payload's id is replaced in place, otherwise the payload
is pushed at the end. -/
def applySessionUpdate (sessions : List Session) (incoming : Session) : List Session :=
  if sessions.any (fun s => s.id = incoming.id) then replaceFirstById sessions incoming
  else sessions ++ [incoming]

/-- Success branch shared by launchHive, launchHiveV2, launchSwarm,
launchFusion and resumeSession: the returned session is added only when no
session with its id is already present. -/
def insertIfAbsent (sessions : List Session) (session : Session) : List Session :=
  if sessions.any (fun s => s.id = session.id) then sessions
  else sessions ++ [session]

/-- Success branch of continueAfterPlanning: the returned session replaces
the existing entry when one is found, otherwise nothing changes. -/
def applyContinueResult (sessions : List Session) (returned : Session) : List Session :=
  if sessions.any (fun s => s.id = returned.id) then replaceFirstById sessions returned
  else sessions

/-- Outcome of one async store command: the updated store state together
with the result the caller's awaited promise observes (ok when the promise
resolves, error when it rejects). -/
structure CommandOutcome (σ : Type) where
  state : σ
  result : Except String Unit

/-- The stopSession store method as a function of the stop_session invoke
outcome: on success the first matching session becomes Completed and the
promise resolves; on failure the error is recorded and re-thrown. -/
def stopSessionCommand (st : SessionsState) (sessionId : String)
    (invokeResult : Except String Unit) : CommandOutcome SessionsState :=
  match invokeResult with
  | Except.ok _ =>
      ⟨{ st with sessions := applyStopSession st.sessions sessionId }, Except.ok ()⟩
  | Except.error e => ⟨{ st with error := some e }, Except.error e⟩

/-- The markPlanReady store method as a function of the mark_plan_ready
invoke outcome: on success the first matching session becomes PlanReady
and the promise resolves; on failure the error is recorded and re-thrown. -/
def markPlanReadyCommand (st : SessionsState) (sessionId : String)
    (invokeResult : Except String Unit) : CommandOutcome SessionsState :=
  match invokeResult with
  | Except.ok _ =>
      ⟨{ st with sessions := applyMarkPlanReady st.sessions sessionId }, Except.ok ()⟩
  | Except.error e => ⟨{ st with error := some e }, Except.error e⟩

/-- The continueAfterPlanning store method as a function of the
continue_after_planning invoke outcome: on success the returned session
replaces the stored entry; on failure the error is recorded and
re-thrown. -/
def continueAfterPlanningCommand (st : SessionsState)
    (invokeResult : Except String Session) : CommandOutcome SessionsState :=
  match invokeResult with
  | Except.ok session =>
      ⟨{ st with sessions := applyContinueResult st.sessions session,
                 loading := false }, Except.ok ()⟩
  | Except.error e =>
      ⟨{ st with loading := false, error := some e }, Except.error e⟩

/-- The launchHive, launchHiveV2, launchSwarm, launchFusion and
resumeSession store methods (identical control flow) as a function of the
invoke outcome: on success the returned session is inserted if absent and
made active; on failure the error is recorded and re-thrown. -/
def launchSessionCommand (st : SessionsState)
    (invokeResult : Except String Session) : CommandOutcome SessionsState :=
  match invokeResult with
  | Except.ok session =>
      ⟨{ st with sessions := insertIfAbsent st.sessions session,
                 activeSessionId := some session.id,
                 loading := false }, Except.ok ()⟩
  | Except.error e =>
      ⟨{ st with loading := false, error := some e }, Except.error e⟩

/-- ConversationMessage from src/lib/stores/conversations.ts. -/
structure ConversationMessage where
  timestamp : String
  from_ : String
  content : String
deriving DecidableEq, Repr

/-- ConversationState, the state of the conversation store. -/
structure ConversationState where
  messages : List ConversationMessage
  loading : Bool
  error : Option String
  selectedAgent : Option String
  sessionId : Option String
deriving DecidableEq, Repr

/-- The sendMessage method of the conversation store as a function of the
append-fetch outcome.  On success the method reloads the conversation
through a separate fetch (not modelled here) and resolves.  On failure the
catch block records the error in the store but does not re-throw, so the
caller's promise still resolves with ok. -/
def sendMessageCommand (st : ConversationState)
    (fetchResult : Except String Unit) : CommandOutcome ConversationState :=
  match fetchResult with
  | Except.ok _ => ⟨st, Except.ok ()⟩
  | Except.error e => ⟨{ st with error := some e }, Except.ok ()⟩

/-- HeartbeatInfo from src/lib/stores/conversations.ts. -/
structure HeartbeatInfo where
  agent_id : String
  status : String
  summary : String
  timestamp : String
deriving DecidableEq, Repr

/-- HeartbeatState, the state of the heartbeat store (agents as an
association list from agent id to heartbeat). -/
structure HeartbeatState where
  agents : List (String × HeartbeatInfo)
  stalledAgents : List String
deriving DecidableEq, Repr

/-- The loadHeartbeats method of the heartbeat store as a function of the
fetch outcome: on success the agents record is replaced with the extracted
heartbeats; on failure the empty catch block silently ignores the error
(nothing is recorded) and the promise resolves with ok. -/
def loadHeartbeatsCommand (st : HeartbeatState)
    (fetchResult : Except String (List (String × HeartbeatInfo))) :
    CommandOutcome HeartbeatState :=
  match fetchResult with
  | Except.ok agents => ⟨{ st with agents := agents }, Except.ok ()⟩
  | Except.error _ => ⟨st, Except.ok ()⟩

/-- Alerts filter predicate of StatusPanel.svelte (line 94 of the Alerts
section): the strict triple-equality comparison of the agent's status value
against the string literal WaitingForInput, evaluated over the values of
the declared AgentStatus type.  The bare-string variants are the distinct
strings Starting, Running and Completed, and the two tagged variants are
objects, which strict equality never identifies with a string, so the
comparison is false on every value of the type. -/
def statusStrictEqWaitingLiteral : AgentStatus → Bool
  | AgentStatus.Starting => false
  | AgentStatus.Running => false
  | AgentStatus.WaitingForInput _ => false
  | AgentStatus.Completed => false
  | AgentStatus.Error _ => false

/-- Alerts list of StatusPanel.svelte (lines 91-103): the active agents
filtered by the strict string comparison above; each element of the result
is rendered as one needs-input alert entry. -/
def statusPanelAlertAgents (agents : List AgentInfo) : List AgentInfo :=
  agents.filter (fun a => statusStrictEqWaitingLiteral a.status)

/-- getSessionStateText from StatusPanel.svelte: a bare-string state is
rendered as itself and the Failed variant with its reason. -/
def getSessionStateText : SessionState → String
  | SessionState.Planning => "Planning"
  | SessionState.PlanReady => "PlanReady"
  | SessionState.Starting => "Starting"
  | SessionState.Running => "Running"
  | SessionState.Paused => "Paused"
  | SessionState.Completed => "Completed"
  | SessionState.Failed reason => "Failed: " ++ reason

/-- canRefine from the plan view component: true exactly when an active
session exists, its state is Planning or PlanReady, and the first agent
found with role MasterPlanner has status Running. -/
def canRefine (activeSession : Option Session) : Bool :=
  match activeSession with
  | none => false
  | some s =>
      if s.state ≠ SessionState.Planning ∧ s.state ≠ SessionState.PlanReady then false
      else
        match s.agents.find? (fun a => a.role = AgentRole.MasterPlanner) with
        | none => false
        | some masterPlanner => masterPlanner.status = AgentStatus.Running

/-- Terminal session states of the lifecycle: Completed and Failed (the
frontend SessionState has no Closed variant). -/
def isTerminal : SessionState → Bool
  | SessionState.Completed => true
  | SessionState.Failed _ => true
  | _ => false

/-- Modelled from the spec: the Rust backend guard of the stop_session
command (the backend command handlers are not under src/).  The lifecycle
invariant of the spec makes Failed terminal, so an explicit stop is
accepted only on a session that is not already terminal. -/
def backendAcceptsStop (s : SessionState) : Bool := !(isTerminal s)

/-- Modelled from the spec: the Rust backend guard of the mark_plan_ready
command — the transition Planning to PlanReady is the only one the spec
grants it, so it is accepted only while the session is Planning. -/
def backendAcceptsMarkPlanReady (s : SessionState) : Bool :=
  s = SessionState.Planning

/-- Modelled from the spec: the Rust backend guard of the
continue_after_planning command — accepted only while the session is
Planning or PlanReady (otherwise rejected with PlanNotApproved semantics). -/
def backendAcceptsContinue (s : SessionState) : Bool :=
  s = SessionState.Planning ∨ s = SessionState.PlanReady

/-- Net session-state effect of the stopSession store command: the
frontend sets the state to Completed exactly when the backend accepted the
stop, and leaves it unchanged when the invoke rejected. -/
def stopSessionState (s : SessionState) : SessionState :=
  if backendAcceptsStop s then SessionState.Completed else s

/-- Net session-state effect of the markPlanReady store command: PlanReady
exactly when the backend accepted, unchanged otherwise. -/
def markPlanReadyState (s : SessionState) : SessionState :=
  if backendAcceptsMarkPlanReady s then SessionState.PlanReady else s

/-- Net session-state effect of the continueAfterPlanning store command:
Running exactly when the backend accepted the approval, unchanged
otherwise. -/
def continueAfterPlanningState (s : SessionState) : SessionState :=
  if backendAcceptsContinue s then SessionState.Running else s

/-- Modelled from the spec: the backend session lifecycle transitions of
section 4.3 (the Rust state machine is not under src/), with the explicit
close mapped to the Completed state the frontend records.  These are the
state changes a session-update event can report. -/
inductive BackendStep : SessionState → SessionState → Prop where
  | markReady : BackendStep SessionState.Planning SessionState.PlanReady
  | approvePlanning : BackendStep SessionState.Planning SessionState.Running
  | approvePlanReady : BackendStep SessionState.PlanReady SessionState.Running
  | launchStart : BackendStep SessionState.Starting SessionState.Running
  | pause : BackendStep SessionState.Running SessionState.Paused
  | resume : BackendStep SessionState.Paused SessionState.Running
  | complete : BackendStep SessionState.Running SessionState.Completed
  | stop (s : SessionState) (h : isTerminal s = false) :
      BackendStep s SessionState.Completed
  | fail (s : SessionState) (reason : String) (h : isTerminal s = false) :
      BackendStep s (SessionState.Failed reason)

/-- Modelled from the spec: a session-update event payload carries the
session after backend activity; its state either is unchanged (agent-level
updates) or has taken one backend lifecycle transition. -/
def legalSessionUpdate (oldState newState : SessionState) : Prop :=
  newState = oldState ∨ BackendStep oldState newState

/-- Position of a state in the monotonic lifecycle order Planning,
PlanReady, Starting, Running, Completed; Paused (the exempted
Running-Paused pair) and Failed are outside the order. -/
def stateRank : SessionState → Option Nat
  | SessionState.Planning => some 0
  | SessionState.PlanReady => some 1
  | SessionState.Starting => some 2
  | SessionState.Running => some 3
  | SessionState.Paused => none
  | SessionState.Completed => some 4
  | SessionState.Failed _ => none

/-- Modelled from the spec: the orchestrator commands and backend events
that drive one planning-gated session (the Rust orchestrator is not under
src/).  The continueAfterPlanning event is the explicit approval of the
plan; it is the only event that appends the spawned Queen/Planner/Worker
hierarchy. -/
inductive OrchestratorEvent where
  | markPlanReady : OrchestratorEvent
  | continueAfterPlanning (hierarchy : List AgentInfo) : OrchestratorEvent
  | agentStatusUpdate (agentId : String) (status : AgentStatus) : OrchestratorEvent
  | stopSession : OrchestratorEvent
  | fail (reason : String) : OrchestratorEvent
deriving DecidableEq, Repr

/-- Modelled from the spec: effect of one orchestrator event on a session.
Marking the plan ready moves Planning to PlanReady; the approval, accepted
while Planning or PlanReady, spawns the hierarchy and advances to Running;
a status update touches only the named agent's status; stop and failure
end a non-terminal session. -/
def applyOrchestratorEvent (s : Session) : OrchestratorEvent → Session
  | OrchestratorEvent.markPlanReady =>
      if s.state = SessionState.Planning then { s with state := SessionState.PlanReady }
      else s
  | OrchestratorEvent.continueAfterPlanning hierarchy =>
      if s.state = SessionState.Planning ∨ s.state = SessionState.PlanReady then
        { s with state := SessionState.Running, agents := s.agents ++ hierarchy }
      else s
  | OrchestratorEvent.agentStatusUpdate agentId status =>
      { s with agents :=
          s.agents.map (fun a => if a.id = agentId then { a with status := status } else a) }
  | OrchestratorEvent.stopSession =>
      if isTerminal s.state then s else { s with state := SessionState.Completed }
  | OrchestratorEvent.fail reason =>
      if isTerminal s.state then s else { s with state := SessionState.Failed reason }

/-- Folding a whole event sequence over a session. -/
def runOrchestrator (s : Session) : List OrchestratorEvent → Session
  | [] => s
  | e :: rest => runOrchestrator (applyOrchestratorEvent s e) rest

/-- Modelled from the spec (Scenario A): a session launched with planning
starts in state Planning with exactly one MasterPlanner agent. -/
def initialPlanningSession (sessionId : String) (planner : AgentInfo) : Session :=
  { id := sessionId, state := SessionState.Planning, agents := [planner] }

/-- Roles of the deferred execution hierarchy: Queen, Planner and Worker. -/
def isQueenPlannerOrWorker : AgentRole → Bool
  | AgentRole.Queen => true
  | AgentRole.Planner _ => true
  | AgentRole.Worker _ _ => true
  | AgentRole.MasterPlanner => false
  | AgentRole.Fusion _ => false

/-- Whether an event is the explicit plan approval. -/
def isApproval : OrchestratorEvent → Bool
  | OrchestratorEvent.continueAfterPlanning _ => true
  | _ => false

/-- Whether some Queen, Planner or Worker agent exists in the session. -/
def hierarchySpawned (s : Session) : Bool :=
  s.agents.any (fun a => isQueenPlannerOrWorker a.role)

/-- Whether a state is Running. -/
def stateIsRunning : SessionState → Bool
  | SessionState.Running => true
  | _ => false

/-- Concrete MasterPlanner agent used as a witness input. -/
def masterPlannerAgent : AgentInfo :=
  { id := "planner-0", role := AgentRole.MasterPlanner,
    status := AgentStatus.Running, parent_id := none }

/-- Concrete agent stuck on a prompt, the failing input of the alerts
filter. -/
def waitingAgent : AgentInfo :=
  { id := "worker-1", role := AgentRole.Worker 1 (some "queen-1"),
    status := AgentStatus.WaitingForInput "Continue? (y/n)",
    parent_id := some "queen-1" }

/-- Concrete planning session with one running MasterPlanner. -/
def planningSession : Session :=
  { id := "session-1", state := SessionState.Planning,
    agents := [masterPlannerAgent] }

/-- Concrete running session used in witnesses and counterexamples. -/
def runningSession : Session :=
  { id := "session-2", state := SessionState.Running, agents := [] }

/-- Concrete coordination message. -/
def msgA : CoordinationMessage :=
  { id := "m-1", timestamp := "t1", from_ := "queen", to_ := "worker-1",
    content := "implement the task", message_type := "Task" }

/-- Concrete coordination message re-delivered with the id of msgA. -/
def msgDup : CoordinationMessage :=
  { id := "m-1", timestamp := "t2", from_ := "queen", to_ := "worker-1",
    content := "implement the task again", message_type := "Task" }

/-- Concrete initial conversation-store state. -/
def initialConversationState : ConversationState :=
  { messages := [], loading := false, error := none,
    selectedAgent := none, sessionId := none }

/-- Concrete initial heartbeat-store state. -/
def emptyHeartbeatState : HeartbeatState :=
  { agents := [], stalledAgents := [] }

/-- Concrete approval-free event sequence used as a witness input. -/
def sampleEvents : List OrchestratorEvent :=
  [OrchestratorEvent.markPlanReady,
   OrchestratorEvent.agentStatusUpdate "planner-0"
     (AgentStatus.WaitingForInput "plan written to plan.md"),
   OrchestratorEvent.stopSession]

end HiveManager

namespace HiveManager

theorem mapGet_mapSet_same (m : ChildrenMap) (k : Option String)
    (v : List AgentInfo) : mapGet (mapSet m k v) k = some v := by
  induction m with
  | nil => simp [mapSet, mapGet, List.find?]
  | cons e rest ih =>
      by_cases h : e.fst = k
      · simp [mapSet, h, mapGet, List.find?]
      · simp only [mapSet, if_neg h]
        simpa [mapGet, List.find?, h] using ih

theorem mapGet_mapSet_other (m : ChildrenMap) (k q : Option String)
    (v : List AgentInfo) (hne : q ≠ k) :
    mapGet (mapSet m k v) q = mapGet m q := by
  have hkq : ¬ (k = q) := fun h => hne h.symm
  induction m with
  | nil => simp [mapSet, mapGet, List.find?, hkq]
  | cons e rest ih =>
      by_cases h : e.fst = k
      · have h2 : ¬ (e.fst = q) := by rw [h]; exact hkq
        simp [mapSet, h, mapGet, List.find?, hkq, h2]
      · simp only [mapSet, if_neg h]
        by_cases hq : e.fst = q
        · simp [mapGet, List.find?, hq]
        · simpa [mapGet, List.find?, hq] using ih

theorem childrenMap_fold_bucket (agents : List AgentInfo) (m : ChildrenMap)
    (p : Option String) :
    (mapGet (agents.foldl childrenMapStep m) p).getD [] =
      (mapGet m p).getD [] ++ agents.filter (fun a => a.parent_id = p) := by
  induction agents generalizing m with
  | nil => simp
  | cons a rest ih =>
      by_cases h : a.parent_id = p
      · have hstep :
            (mapGet (childrenMapStep m a) p).getD [] =
              (mapGet m p).getD [] ++ [a] := by
          simp [childrenMapStep, h, mapGet_mapSet_same]
        calc (mapGet ((a :: rest).foldl childrenMapStep m) p).getD []
            = (mapGet (rest.foldl childrenMapStep (childrenMapStep m a)) p).getD [] := by
              simp [List.foldl_cons]
          _ = (mapGet (childrenMapStep m a) p).getD [] ++
                rest.filter (fun a => a.parent_id = p) := ih (childrenMapStep m a)
          _ = (mapGet m p).getD [] ++
                (a :: rest.filter (fun a => a.parent_id = p)) := by
              rw [hstep]; simp
          _ = (mapGet m p).getD [] ++
                ((a :: rest).filter (fun a => a.parent_id = p)) := by
              simp [List.filter_cons, h]
      · have hstep : mapGet (childrenMapStep m a) p = mapGet m p := by
          have : p ≠ a.parent_id := fun hp => h hp.symm
          simp [childrenMapStep, mapGet_mapSet_other _ _ _ _ this]
        calc (mapGet ((a :: rest).foldl childrenMapStep m) p).getD []
            = (mapGet (rest.foldl childrenMapStep (childrenMapStep m a)) p).getD [] := by
              simp [List.foldl_cons]
          _ = (mapGet (childrenMapStep m a) p).getD [] ++
                rest.filter (fun a => a.parent_id = p) := ih (childrenMapStep m a)
          _ = (mapGet m p).getD [] ++
                ((a :: rest).filter (fun a => a.parent_id = p)) := by
              rw [hstep]; simp [List.filter_cons, h]

/-- C7: the children-by-parent index is correct: every key p (a parent id
or null) maps to exactly the agents whose parent_id equals p, in the
original list order; the null bucket is exactly the roots; and every agent
of the list occurs exactly in the bucket of its own parent_id. -/
theorem getChildrenMap_correct (agents : List AgentInfo) :
    (∀ p, childrenBucket agents p = agents.filter (fun a => a.parent_id = p)) ∧
    childrenBucket agents none = agents.filter (fun a => a.parent_id = none) ∧
    ∀ a ∈ agents, ∀ p, a ∈ childrenBucket agents p ↔ p = a.parent_id := by
  have hbucket : ∀ p, childrenBucket agents p =
      agents.filter (fun a => a.parent_id = p) := by
    intro p
    have := childrenMap_fold_bucket agents [] p
    simpa [childrenBucket, getChildrenMap, mapGet] using this
  refine ⟨hbucket, hbucket none, ?_⟩
  intro a ha p
  rw [hbucket p]
  constructor
  · intro hmem
    have h2 : a.parent_id = p := by simpa using List.of_mem_filter hmem
    exact h2.symm
  · intro hp
    exact List.mem_filter.mpr ⟨ha, by simpa using hp.symm⟩

end HiveManager

namespace HiveManager

/-- C2: appending a coordination message is idempotent on its id:
delivering the coordination-message event for m twice leaves the log
exactly as delivering it once (hence with the same length and contents),
and a message whose id already occurs in the log is never added again. -/
theorem coordination_append_idempotent (log : List CoordinationMessage)
    (m : CoordinationMessage) :
    appendCoordinationMessage (appendCoordinationMessage log m) m =
      appendCoordinationMessage log m ∧
    (m.id ∈ log.map (fun x => x.id) → appendCoordinationMessage log m = log) := by
  constructor
  · by_cases h : log.any (fun x => x.id = m.id) = true
    · simp [appendCoordinationMessage, h]
    · have h2 : (log ++ [m]).any (fun x => x.id = m.id) = true := by
        simp [List.any_append]
      simp [appendCoordinationMessage, h, h2]
  · intro hmem
    have h : log.any (fun x => x.id = m.id) = true := by
      simp only [List.any_eq_true, decide_eq_true_eq]
      obtain ⟨x, hx, hid⟩ := List.mem_map.mp hmem
      exact ⟨x, hx, hid⟩
    simp [appendCoordinationMessage, h]

/-- C2 witness: delivering a concrete message whose id already occurs in
the log leaves the log unchanged. -/
theorem coordination_append_idempotent_witness :
    appendCoordinationMessage [msgA] msgDup = [msgA] :=
  (coordination_append_idempotent [msgA] msgDup).2 (by decide)

/-- C6 counterexample: delivering the fusion-variant-completed event for
the same variant name twice puts that name into completedVariants twice,
refuting the claimed set behaviour at a concrete input. -/
theorem fusion_completed_duplicate_counterexample :
    applyFusionVariantCompletedAll [] ["variant-a", "variant-a"] =
      ["variant-a", "variant-a"] ∧
    (applyFusionVariantCompletedAll [] ["variant-a", "variant-a"]).count
      "variant-a" = 2 := by
  constructor <;> rfl

/-- C6 amended: completedVariants accumulates one entry per delivered
fusion-variant-completed event, in delivery order and with no duplicate
check: from the initial empty list it equals the delivered sequence
itself, so it is duplicate-free exactly when no variant name is delivered
twice. -/
theorem fusion_completed_variants_append (completedVariants : List String)
    (events : List String) :
    applyFusionVariantCompletedAll completedVariants events =
      completedVariants ++ events ∧
    applyFusionVariantCompletedAll [] events = events ∧
    ((applyFusionVariantCompletedAll [] events).Nodup ↔ events.Nodup) := by
  have key : ∀ (evs init : List String),
      applyFusionVariantCompletedAll init evs = init ++ evs := by
    intro evs
    induction evs with
    | nil => intro init; simp [applyFusionVariantCompletedAll]
    | cons v rest ih =>
        intro init
        have h1 : applyFusionVariantCompletedAll init (v :: rest) =
            applyFusionVariantCompletedAll (init ++ [v]) rest := rfl
        rw [h1, ih]
        simp
  refine ⟨key events completedVariants, ?_, ?_⟩
  · rw [key events []]; rfl
  · rw [key events []]; simp

/-- C4 counterexample: explicitly stopping the concrete running session
keeps its record in the list but leaves it in state Completed, which the
status panel renders as Completed, not Closed; the SessionState type of
the store has no Closed variant at all. -/
theorem stop_session_counterexample :
    applyStopSession [runningSession] "session-2" =
      [{ runningSession with state := SessionState.Completed }] ∧
    (applyStopSession [runningSession] "session-2").map
      (fun s => getSessionStateText s.state) = ["Completed"] ∧
    getSessionStateText SessionState.Completed ≠ "Closed" := by
  refine ⟨by decide, by decide, by decide⟩

/-- C4 amended: explicitly stopping a session sets the first matching
session's state to Completed (the session state type has no Closed
variant) while the session's record remains in the session list: the id
sequence of the list is unchanged and the record is still found under its
id, now in state Completed. -/
theorem stop_session_completes_and_preserves (l : List Session)
    (sessionId : String) :
    (applyStopSession l sessionId).map (fun s => s.id) =
      l.map (fun s => s.id) ∧
    (∀ s, firstSessionById l sessionId = some s →
      firstSessionById (applyStopSession l sessionId) sessionId =
        some { s with state := SessionState.Completed }) := by
  induction l with
  | nil => simp [applyStopSession, firstSessionById, List.find?]
  | cons t rest ih =>
      by_cases h : t.id = sessionId
      · constructor
        · simp [applyStopSession, h]
        · intro s hs
          have hst : t = s := by
            simpa [firstSessionById, List.find?, h] using hs
          subst hst
          simp [applyStopSession, h, firstSessionById, List.find?]
      · constructor
        · simpa [applyStopSession, h] using ih.1
        · intro s hs
          have hs2 : firstSessionById rest sessionId = some s := by
            simpa [firstSessionById, List.find?, h] using hs
          have h3 := ih.2 s hs2
          simpa [applyStopSession, h, firstSessionById, List.find?] using h3

/-- C4 witness: stopping the concrete running session leaves its record
findable under its id, in state Completed. -/
theorem stop_session_completes_and_preserves_witness :
    firstSessionById (applyStopSession [runningSession] "session-2")
      "session-2" = some { runningSession with state := SessionState.Completed } :=
  (stop_session_completes_and_preserves [runningSession] "session-2").2
    runningSession (by decide)

/-- C5: evaluation of the cited alerts filter at the failing input.  An
agent whose status is the tagged variant WaitingForInput produces no alert
entry, because the filter compares the status value against the bare
string literal, which no value of the declared AgentStatus type ever
satisfies; consequently the alert list is empty for every agent list. -/
theorem statusPanel_alert_never_fires :
    statusPanelAlertAgents [waitingAgent] = [] ∧
    ∀ agents, statusPanelAlertAgents agents = [] := by
  have hfalse : ∀ st, statusStrictEqWaitingLiteral st = false := by
    intro st; cases st <;> rfl
  constructor
  · rfl
  · intro agents
    simp only [statusPanelAlertAgents]
    rw [List.filter_eq_nil_iff]
    intro a _
    simp [hfalse]

/-- C9 counterexample: a failing send invocation is swallowed: the
conversation-store sendMessage records the error but its promise resolves
with ok instead of rejecting, and the heartbeat-store loadHeartbeats
resolves without recording anything at all. -/
theorem sendMessage_swallows_failure :
    (sendMessageCommand initialConversationState
        (Except.error "HTTP 500")).result = Except.ok () ∧
    (sendMessageCommand initialConversationState
        (Except.error "HTTP 500")).state.error = some "HTTP 500" ∧
    loadHeartbeatsCommand emptyHeartbeatState (Except.error "HTTP 500") =
      ⟨emptyHeartbeatState, Except.ok ()⟩ := by
  exact ⟨rfl, rfl, rfl⟩

/-- C9 amended: the sessions-store commands (stopSession, markPlanReady,
continueAfterPlanning, and the launch and resume family) record a failed
invocation in the error field and re-throw it, so the caller's promise
rejects; but the conversation-store sendMessage records the error and
nevertheless resolves with ok, and the heartbeat-store loadHeartbeats
silently ignores the failure, leaving store state and promise untouched. -/
theorem command_failure_propagation (st : SessionsState)
    (cst : ConversationState) (hst : HeartbeatState) (sessionId e : String) :
    (stopSessionCommand st sessionId (Except.error e)).result = Except.error e ∧
    (stopSessionCommand st sessionId (Except.error e)).state.error = some e ∧
    (markPlanReadyCommand st sessionId (Except.error e)).result = Except.error e ∧
    (markPlanReadyCommand st sessionId (Except.error e)).state.error = some e ∧
    (continueAfterPlanningCommand st (Except.error e)).result = Except.error e ∧
    (continueAfterPlanningCommand st (Except.error e)).state.error = some e ∧
    (launchSessionCommand st (Except.error e)).result = Except.error e ∧
    (launchSessionCommand st (Except.error e)).state.error = some e ∧
    (sendMessageCommand cst (Except.error e)).result = Except.ok () ∧
    (sendMessageCommand cst (Except.error e)).state.error = some e ∧
    loadHeartbeatsCommand hst (Except.error e) = ⟨hst, Except.ok ()⟩ := by
  exact ⟨rfl, rfl, rfl, rfl, rfl, rfl, rfl, rfl, rfl, rfl, rfl⟩

end HiveManager

namespace HiveManager

theorem replaceFirstById_map_id (l : List Session) (s : Session) :
    (replaceFirstById l s).map (fun t => t.id) = l.map (fun t => t.id) := by
  induction l with
  | nil => rfl
  | cons t rest ih =>
      by_cases h : t.id = s.id
      · simp [replaceFirstById, h]
      · simp [replaceFirstById, h, ih]

/-- C10: session ids stay unique.  If the sessions list contains no two
sessions with the same id, then it still contains no two such sessions
after a session-update event (replacement in place or push of a fresh id)
and after the insertion performed by a successful launchHive, launchHiveV2,
launchSwarm, launchFusion or resumeSession (insertIfAbsent). -/
theorem session_ids_stay_unique (l : List Session) (s : Session)
    (h : (l.map (fun t => t.id)).Nodup) :
    ((applySessionUpdate l s).map (fun t => t.id)).Nodup ∧
    ((insertIfAbsent l s).map (fun t => t.id)).Nodup := by
  have hfresh : l.any (fun t => t.id = s.id) = false →
      ((l ++ [s]).map (fun t => t.id)).Nodup := by
    intro hany
    have hnotin : s.id ∉ l.map (fun t => t.id) := by
      intro hmem
      obtain ⟨t, ht, hid⟩ := List.mem_map.mp hmem
      have : l.any (fun t => t.id = s.id) = true := by
        simp only [List.any_eq_true, decide_eq_true_eq]
        exact ⟨t, ht, hid⟩
      rw [hany] at this
      exact Bool.false_ne_true this
    simp only [List.map_append, List.map_cons, List.map_nil]
    exact List.Nodup.append h (List.nodup_singleton s.id)
      (by simpa [List.disjoint_singleton] using hnotin)
  constructor
  · by_cases hany : l.any (fun t => t.id = s.id) = true
    · simpa [applySessionUpdate, hany, replaceFirstById_map_id] using h
    · have hfalse : l.any (fun t => t.id = s.id) = false :=
        Bool.eq_false_iff.mpr hany
      simpa [applySessionUpdate, hfalse] using hfresh hfalse
  · by_cases hany : l.any (fun t => t.id = s.id) = true
    · simpa [insertIfAbsent, hany] using h
    · have hfalse : l.any (fun t => t.id = s.id) = false :=
        Bool.eq_false_iff.mpr hany
      simpa [insertIfAbsent, hfalse] using hfresh hfalse

/-- C10 witness: updating and inserting concrete sessions in a
duplicate-free list keeps the id list duplicate-free. -/
theorem session_ids_stay_unique_witness :
    ((applySessionUpdate [runningSession] planningSession).map
      (fun t => t.id)).Nodup ∧
    ((insertIfAbsent [runningSession] planningSession).map
      (fun t => t.id)).Nodup :=
  session_ids_stay_unique [runningSession] planningSession (by decide)

/-- C8: canRefine returns true exactly when the active session is in state
Planning or PlanReady and contains a MasterPlanner agent whose status is
Running.  Stated under the data-model invariant that a session holds at
most one MasterPlanner agent (the planning phase spawns exactly one). -/
theorem canRefine_iff (s : Session)
    (huniq : ∀ a ∈ s.agents, ∀ b ∈ s.agents,
      a.role = AgentRole.MasterPlanner → b.role = AgentRole.MasterPlanner → a = b) :
    canRefine (some s) = true ↔
      ((s.state = SessionState.Planning ∨ s.state = SessionState.PlanReady) ∧
        ∃ a ∈ s.agents, a.role = AgentRole.MasterPlanner ∧
          a.status = AgentStatus.Running) := by
  by_cases hstate : s.state = SessionState.Planning ∨ s.state = SessionState.PlanReady
  · have hcond : ¬(s.state ≠ SessionState.Planning ∧ s.state ≠ SessionState.PlanReady) := by
      rcases hstate with h | h <;> simp [h]
    cases hfind : s.agents.find? (fun a => a.role = AgentRole.MasterPlanner) with
    | none =>
        have hnone : ∀ a ∈ s.agents, ¬(a.role = AgentRole.MasterPlanner) := by
          intro a ha
          have := List.find?_eq_none.mp hfind a ha
          simpa using this
        constructor
        · intro hcan
          exfalso
          simp [canRefine, hcond, hfind] at hcan
        · rintro ⟨-, a, ha, harole, -⟩
          exact absurd harole (hnone a ha)
    | some mp =>
        have hmem : mp ∈ s.agents := List.mem_of_find?_eq_some hfind
        have hrole : mp.role = AgentRole.MasterPlanner := by
          have := List.find?_some hfind
          simpa using this
        constructor
        · intro hcan
          have hstatus : mp.status = AgentStatus.Running := by
            simpa [canRefine, hcond, hfind] using hcan
          exact ⟨hstate, mp, hmem, hrole, hstatus⟩
        · rintro ⟨-, a, ha, harole, hastatus⟩
          have heq : mp = a := huniq mp hmem a ha hrole harole
          simp [canRefine, hcond, hfind, heq, hastatus]
  · have hcond : s.state ≠ SessionState.Planning ∧ s.state ≠ SessionState.PlanReady := by
      constructor
      · intro h; exact hstate (Or.inl h)
      · intro h; exact hstate (Or.inr h)
    constructor
    · intro hcan
      exfalso
      simp [canRefine, hcond] at hcan
    · rintro ⟨hst, -⟩
      exact absurd hst hstate

/-- C8 witness: on the concrete planning session with one running
MasterPlanner, canRefine is true. -/
theorem canRefine_iff_witness : canRefine (some planningSession) = true :=
  (canRefine_iff planningSession (by decide)).mpr
    ⟨Or.inl rfl, masterPlannerAgent, by simp [planningSession], rfl, rfl⟩

end HiveManager

namespace HiveManager

/-- C3: the session lifecycle invariant.  A session in a Failed state is
never moved out of it by the stopSession, markPlanReady or
continueAfterPlanning store commands, nor by a session-update event
carrying a legal backend transition (Closed is not even a variant of the
frontend SessionState, so its terminality is vacuous); each of these
operations is monotonic in the order Planning, PlanReady, Starting,
Running, Completed, with the Running-Paused pair outside that order; and
markPlanReady never moves a session that is already past PlanReady back to
PlanReady. -/
theorem session_lifecycle_invariant :
    (∀ reason : String,
      stopSessionState (SessionState.Failed reason) = SessionState.Failed reason ∧
      markPlanReadyState (SessionState.Failed reason) = SessionState.Failed reason ∧
      continueAfterPlanningState (SessionState.Failed reason) =
        SessionState.Failed reason) ∧
    (∀ (reason : String) (newState : SessionState),
      legalSessionUpdate (SessionState.Failed reason) newState →
      newState = SessionState.Failed reason) ∧
    (∀ (s : SessionState) (i j : Nat), stateRank s = some i →
      stateRank (stopSessionState s) = some j → i ≤ j) ∧
    (∀ (s : SessionState) (i j : Nat), stateRank s = some i →
      stateRank (markPlanReadyState s) = some j → i ≤ j) ∧
    (∀ (s : SessionState) (i j : Nat), stateRank s = some i →
      stateRank (continueAfterPlanningState s) = some j → i ≤ j) ∧
    (∀ (oldState newState : SessionState) (i j : Nat),
      legalSessionUpdate oldState newState → stateRank oldState = some i →
      stateRank newState = some j → i ≤ j) ∧
    (∀ (s : SessionState) (i : Nat), stateRank s = some i → 1 < i →
      markPlanReadyState s = s) := by
  refine ⟨?_, ?_, ?_, ?_, ?_, ?_, ?_⟩
  · intro reason
    refine ⟨?_, ?_, ?_⟩ <;>
      simp [stopSessionState, markPlanReadyState, continueAfterPlanningState,
        backendAcceptsStop, backendAcceptsMarkPlanReady, backendAcceptsContinue,
        isTerminal]
  · intro reason newState hlegal
    rcases hlegal with h | h
    · exact h
    · cases h with
      | stop _ hterm => simp [isTerminal] at hterm
      | fail _ _ hterm => simp [isTerminal] at hterm
  · intro s i j h1 h2
    cases s <;>
      simp [stopSessionState, backendAcceptsStop, isTerminal, stateRank] at h1 h2 <;>
      omega
  · intro s i j h1 h2
    cases s <;>
      simp [markPlanReadyState, backendAcceptsMarkPlanReady, stateRank] at h1 h2 <;>
      omega
  · intro s i j h1 h2
    cases s <;>
      simp [continueAfterPlanningState, backendAcceptsContinue, stateRank] at h1 h2 <;>
      omega
  · intro oldState newState i j hlegal h1 h2
    rcases hlegal with h | h
    · subst h; rw [h1] at h2; injection h2 with h3; omega
    · cases h with
      | markReady => simp [stateRank] at h1 h2; omega
      | approvePlanning => simp [stateRank] at h1 h2; omega
      | approvePlanReady => simp [stateRank] at h1 h2; omega
      | launchStart => simp [stateRank] at h1 h2; omega
      | pause => simp [stateRank] at h2
      | resume => simp [stateRank] at h1
      | complete => simp [stateRank] at h1 h2; omega
      | stop =>
          rename_i hterm
          cases oldState <;> simp [stateRank, isTerminal] at h1 h2 hterm <;> omega
      | fail => simp [stateRank] at h2
  · intro s i h1 hgt
    cases s <;>
      simp [markPlanReadyState, backendAcceptsMarkPlanReady, stateRank] at h1 ⊢ <;>
      omega

/-- C3 witness: a session already in state Running (rank 3, past
PlanReady) is left untouched by markPlanReady. -/
theorem session_lifecycle_invariant_witness :
    markPlanReadyState SessionState.Running = SessionState.Running :=
  session_lifecycle_invariant.2.2.2.2.2.2 SessionState.Running 3 rfl (by omega)

theorem applyEvent_no_approval_preserves (s : Session) (e : OrchestratorEvent)
    (he : isApproval e = false)
    (hs : hierarchySpawned s = false) (hrun : stateIsRunning s.state = false) :
    hierarchySpawned (applyOrchestratorEvent s e) = false ∧
    stateIsRunning (applyOrchestratorEvent s e).state = false := by
  cases e with
  | markPlanReady =>
      by_cases h : s.state = SessionState.Planning
      · constructor
        · simpa [applyOrchestratorEvent, h, hierarchySpawned] using hs
        · simp [applyOrchestratorEvent, h, stateIsRunning]
      · simpa [applyOrchestratorEvent, h] using ⟨hs, hrun⟩
  | continueAfterPlanning hierarchy => simp [isApproval] at he
  | agentStatusUpdate agentId status =>
      constructor
      · have hmap : ∀ (l : List AgentInfo),
            ((l.map (fun a => if a.id = agentId then { a with status := status }
              else a)).any (fun a => isQueenPlannerOrWorker a.role)) =
            l.any (fun a => isQueenPlannerOrWorker a.role) := by
          intro l
          induction l with
          | nil => rfl
          | cons a rest ih =>
              by_cases h : a.id = agentId <;> simp [h, ih]
        simpa [applyOrchestratorEvent, hierarchySpawned, hmap] using hs
      · simpa [applyOrchestratorEvent] using hrun
  | stopSession =>
      by_cases h : isTerminal s.state = true
      · simpa [applyOrchestratorEvent, h] using ⟨hs, hrun⟩
      · have h2 : isTerminal s.state = false := Bool.eq_false_iff.mpr h
        constructor
        · simpa [applyOrchestratorEvent, h2, hierarchySpawned] using hs
        · simp [applyOrchestratorEvent, h2, stateIsRunning]
  | fail reason =>
      by_cases h : isTerminal s.state = true
      · simpa [applyOrchestratorEvent, h] using ⟨hs, hrun⟩
      · have h2 : isTerminal s.state = false := Bool.eq_false_iff.mpr h
        constructor
        · simpa [applyOrchestratorEvent, h2, hierarchySpawned] using hs
        · simp [applyOrchestratorEvent, h2, stateIsRunning]

theorem runOrchestrator_no_approval (events : List OrchestratorEvent)
    (s : Session)
    (hno : ∀ e ∈ events, isApproval e = false)
    (hs : hierarchySpawned s = false) (hrun : stateIsRunning s.state = false) :
    hierarchySpawned (runOrchestrator s events) = false ∧
    stateIsRunning (runOrchestrator s events).state = false := by
  induction events generalizing s with
  | nil => exact ⟨hs, hrun⟩
  | cons e rest ih =>
      have he : isApproval e = false := hno e (by simp)
      have hrest : ∀ x ∈ rest, isApproval x = false := by
        intro x hx; exact hno x (by simp [hx])
      have hstep := applyEvent_no_approval_preserves s e he hs hrun
      exact ih (applyOrchestratorEvent s e) hrest hstep.1 hstep.2

/-- C1: workers never start against an unapproved plan.  From the freshly
launched planning session (one MasterPlanner, state Planning), every event
sequence free of the continue_after_planning approval leaves the session
with no Queen, Planner or Worker agent and never in state Running; and the
approval itself, issued while the session is Planning or PlanReady, is
exactly the step that appends the spawned hierarchy and advances the state
to Running. -/
theorem no_hierarchy_before_approval (sessionId : String)
    (planner : AgentInfo) (events : List OrchestratorEvent)
    (hrole : planner.role = AgentRole.MasterPlanner)
    (hnoapproval : ∀ e ∈ events, isApproval e = false) :
    hierarchySpawned
      (runOrchestrator (initialPlanningSession sessionId planner) events) = false ∧
    stateIsRunning
      (runOrchestrator (initialPlanningSession sessionId planner) events).state
      = false ∧
    (∀ (s : Session) (hierarchy : List AgentInfo),
      s.state = SessionState.Planning ∨ s.state = SessionState.PlanReady →
      applyOrchestratorEvent s (OrchestratorEvent.continueAfterPlanning hierarchy) =
        { s with state := SessionState.Running, agents := s.agents ++ hierarchy }) := by
  have hinit : hierarchySpawned (initialPlanningSession sessionId planner) = false := by
    simp [initialPlanningSession, hierarchySpawned, hrole, isQueenPlannerOrWorker]
  have hrun : stateIsRunning (initialPlanningSession sessionId planner).state = false := by
    simp [initialPlanningSession, stateIsRunning]
  have hmain := runOrchestrator_no_approval events
    (initialPlanningSession sessionId planner) hnoapproval hinit hrun
  refine ⟨hmain.1, hmain.2, ?_⟩
  intro s hierarchy hstate
  simp [applyOrchestratorEvent, hstate]

/-- C1 witness: a concrete approval-free run (mark ready, a status update,
an explicit stop) never creates a Queen, Planner or Worker agent and never
reaches Running. -/
theorem no_hierarchy_before_approval_witness :
    hierarchySpawned
      (runOrchestrator (initialPlanningSession "session-1" masterPlannerAgent)
        sampleEvents) = false :=
  (no_hierarchy_before_approval "session-1" masterPlannerAgent sampleEvents
    rfl (by decide)).1

end HiveManager

namespace HiveManager

/-- C7 witness: in a concrete agent list the waiting worker is found in
the bucket of its own parent id. -/
theorem getChildrenMap_correct_witness :
    waitingAgent ∈ childrenBucket [waitingAgent] (some "queen-1") :=
  ((getChildrenMap_correct [waitingAgent]).2.2 waitingAgent (by decide)
    (some "queen-1")).mpr (by decide)

end HiveManager
